import Mathlib

/-!
Verification of the Todo Store of the to-do-loo repository.

The repository is a Django application whose core is a single `Todo`
entity with create, read, update, delete and toggle operations.  The
sources at hand are `todos/forms.py`, `todos/views.py`, `todos/admin.py`
and `todos/tests.py`; the model file `todos/models.py` is absent, so the
entity fields, their defaults, the title length bound, the timestamp
behaviour and the default ordering are modelled from the specification,
as noted on each such definition.  Everything else is translated from
the sources: the form validation from `TodoForm`, the operations from
the view classes and `toggle_todo`, the page size from
`TodoListView.paginate_by`.

Timestamps are modelled as natural numbers (a discrete clock passed
explicitly to every mutating operation).  Fallible operations return
`Except Err`; a failing request saves nothing, which the `...Effect`
wrappers make explicit by returning the unchanged store on error.
-/

namespace TodoApp

/-- Timestamps are natural numbers on an abstract discrete clock. -/
abbrev Time := Nat

/-- Modelled from the spec: the `Todo` entity of the missing
`todos/models.py`.  Fields follow the spec data-model table: an opaque
unique id assigned at creation, a required bounded title, a description
defaulting to the empty string, a `completed` flag defaulting to false,
an optional due date, and the two timestamps. -/
structure Todo where
  id : Nat
  title : String
  description : String
  completed : Bool
  due_date : Option Time
  created_at : Time
  updated_at : Time
  deriving Repr, DecidableEq

/-- The data bound by `TodoForm` (`todos/forms.py`): the form exposes
exactly the fields `title`, `description`, `due_date` and `completed`;
`due_date` is declared with `required=False` and an unchecked checkbox
posts `completed = false`. -/
structure TodoFormData where
  title : String
  description : String
  due_date : Option Time
  completed : Bool
  deriving Repr, DecidableEq

/-- Validation performed by `TodoForm.is_valid`: the title is required
and bounded.  The 200-character bound is Modelled from the spec, since
the `max_length` lives on the missing `todos/models.py`; description and
due date are optional and unconstrained. -/
def formValid (d : TodoFormData) : Bool :=
  decide (d.title ≠ "" ∧ d.title.length ≤ 200)

/-- The two error kinds of the system: `NotFound` (absent id, surfaced
as a 404 by `get_object_or_404` and the generic views) and
`ValidationError` carrying the name of the failing field. -/
inductive Err where
  | NotFound : Err
  | ValidationError : String → Err
  deriving Repr, DecidableEq

/-- The persistent store: the todos table together with the
auto-increment primary-key counter. -/
structure Store where
  todos : List Todo
  nextId : Nat
  deriving Repr, DecidableEq

/-- Primary-key lookup, as performed by `get_object_or_404(Todo, pk=pk)`
and by the generic views through `get_object`. -/
def findTodo (s : Store) (id : Nat) : Option Todo :=
  s.todos.find? (fun t => t.id == id)

/-- `TodoCreateView` (`todos/views.py`) posting `TodoForm`: on a valid
form the instance is saved with a fresh primary key; `created_at` and
`updated_at` are both set to the current time (Modelled from the spec:
`created_at = updated_at = now`, the auto-now fields being on the
missing `todos/models.py`).  The form fields include `completed`
(`todos/forms.py`), so the saved flag is the one supplied by the
caller.  On an invalid form nothing is saved and the error names the
failing field. -/
def createTodo (s : Store) (d : TodoFormData) (now : Time) :
    Except Err (Store × Todo) :=
  if formValid d then
    let t : Todo :=
      { id := s.nextId, title := d.title, description := d.description,
        completed := d.completed, due_date := d.due_date,
        created_at := now, updated_at := now }
    Except.ok ({ todos := s.todos ++ [t], nextId := s.nextId + 1 }, t)
  else Except.error (Err.ValidationError "title")

/-- `TodoDetailView`: fetch the row by pk, or 404 when absent. -/
def getTodo (s : Store) (id : Nat) : Except Err Todo :=
  match findTodo s id with
  | none => Except.error Err.NotFound
  | some t => Except.ok t

/-- The field replacement performed by saving `TodoForm` over an
existing instance: `title`, `description`, `due_date` and `completed`
are all replaced (the form lists all four fields, a full replace);
`updated_at` is refreshed (Modelled from the spec: auto-now on the
missing model); `id` and `created_at` are untouched. -/
def applyForm (d : TodoFormData) (now : Time) (t : Todo) : Todo :=
  { t with title := d.title, description := d.description,
           due_date := d.due_date, completed := d.completed,
           updated_at := now }

/-- `TodoUpdateView`: 404 when the pk is absent; otherwise validates the
form and, when valid, saves the full replacement of all form fields on
the row with this pk. -/
def updateTodo (s : Store) (id : Nat) (d : TodoFormData) (now : Time) :
    Except Err Store :=
  match findTodo s id with
  | none => Except.error Err.NotFound
  | some _ =>
    if formValid d then
      Except.ok { s with
        todos := s.todos.map (fun t => if t.id == id then applyForm d now t else t) }
    else Except.error (Err.ValidationError "title")

/-- `TodoDeleteView`: 404 when the pk is absent, otherwise the row is
removed permanently. -/
def deleteTodo (s : Store) (id : Nat) : Except Err Store :=
  match findTodo s id with
  | none => Except.error Err.NotFound
  | some _ => Except.ok { s with todos := s.todos.filter (fun t => t.id != id) }

/-- The single-row effect of `toggle_todo`: flip `completed` and refresh
`updated_at` on the row with this pk; any other row is untouched. -/
def toggleAt (id : Nat) (now : Time) (t : Todo) : Todo :=
  if t.id == id then { t with completed := !t.completed, updated_at := now } else t

/-- `toggle_todo` (`todos/views.py`): `get_object_or_404(Todo, pk=pk)`,
then `todo.completed = not todo.completed` and `todo.save()`. -/
def toggleTodo (s : Store) (id : Nat) (now : Time) : Except Err Store :=
  match findTodo s id with
  | none => Except.error Err.NotFound
  | some _ => Except.ok { s with todos := s.todos.map (toggleAt id now) }

/-- The store after a create request: a failing request saves nothing
(the create view re-renders the form without touching the table). -/
def createEffect (s : Store) (d : TodoFormData) (now : Time) : Store :=
  match createTodo s d now with
  | Except.ok p => p.1
  | Except.error _ => s

/-- The store after an update request: unchanged when the request
fails. -/
def updateEffect (s : Store) (id : Nat) (d : TodoFormData) (now : Time) : Store :=
  match updateTodo s id d now with
  | Except.ok s2 => s2
  | Except.error _ => s

/-- The store after a delete request: unchanged when the request 404s. -/
def deleteEffect (s : Store) (id : Nat) : Store :=
  match deleteTodo s id with
  | Except.ok s2 => s2
  | Except.error _ => s

/-- The store after a toggle request: unchanged when the request 404s. -/
def toggleEffect (s : Store) (id : Nat) (now : Time) : Store :=
  match toggleTodo s id now with
  | Except.ok s2 => s2
  | Except.error _ => s

/-- `TodoListView.paginate_by` (`todos/views.py`). -/
def pageSize : Nat := 10

/-- Most-recently-created-first comparison.  Modelled from the spec: the
default ordering is configured on the missing `todos/models.py`; the
spec states most-recently-created first. -/
def moreRecent (a b : Todo) : Bool :=
  decide (b.created_at ≤ a.created_at)

/-- Insertion step of the ordering used by the list view. -/
def insertByRecent (t : Todo) : List Todo → List Todo
  | [] => [t]
  | x :: xs => if moreRecent t x then t :: x :: xs else x :: insertByRecent t xs

/-- The table sorted most-recently-created first. -/
def sortByRecent : List Todo → List Todo
  | [] => []
  | x :: xs => insertByRecent x (sortByRecent xs)

/-- `TodoListView`: the whole table in the configured order, sliced into
fixed pages of `pageSize`; `page` is zero-based here. -/
def listTodos (s : Store) (page : Nat) : List Todo :=
  ((sortByRecent s.todos).drop (page * pageSize)).take pageSize

/-- First phase of `toggle_todo` under concurrency: the read
`get_object_or_404(Todo, pk=pk)` followed by the in-memory negation,
producing the `completed` value that the later `save()` will write.
The view wraps the read and the write in no transaction and uses no
atomic database update, so another request may run between the two
phases. -/
def toggleReadPhase (s : Store) (id : Nat) : Option Bool :=
  (findTodo s id).map (fun t => !t.completed)

/-- Second phase of `toggle_todo` under concurrency: `todo.save()`,
writing the previously computed `completed` value and refreshing
`updated_at` on the row with this pk. -/
def toggleWritePhase (s : Store) (id : Nat) (v : Bool) (now : Time) : Store :=
  { s with
    todos := s.todos.map fun t =>
      if t.id == id then { t with completed := v, updated_at := now } else t }

/-- A sample row used by the concrete witnesses below. -/
def tSample : Todo :=
  { id := 1, title := "A", description := "", completed := false,
    due_date := none, created_at := 0, updated_at := 0 }

/-- A sample store holding `tSample`, next primary key 2. -/
def sSample : Store := { todos := [tSample], nextId := 2 }

/-- Sample form data with every field supplied. -/
def dSample : TodoFormData :=
  { title := "B", description := "d", due_date := some 3, completed := true }

/-- Sample form data leaving the `completed` checkbox unchecked. -/
def dPending : TodoFormData :=
  { title := "C", description := "", due_date := none, completed := false }

/-! Helper lemmas shared by the claim theorems. -/

/-- The validity test of `TodoForm`, unfolded: it accepts exactly the
titles that are non-empty and at most 200 characters long. -/
theorem formValid_iff (d : TodoFormData) :
    formValid d = true ↔ ¬(d.title = "" ∨ 200 < d.title.length) := by
  simp [formValid, not_or, Nat.not_lt]

/-- A pk lookup commutes with a pk-preserving row transformation: if the
lookup finds `t`, the lookup on the transformed table finds `g t`. -/
theorem find?_map_pk (g : Todo → Todo) (hid : ∀ t, (g t).id = t.id) (id : Nat)
    (l : List Todo) (t : Todo)
    (h : l.find? (fun u => u.id == id) = some t) :
    (l.map g).find? (fun u => u.id == id) = some (g t) := by
  rw [List.find?_map]
  have hp : ((fun u : Todo => u.id == id) ∘ g) = fun u : Todo => u.id == id := by
    funext u
    simp [Function.comp, hid]
  rw [hp, h]
  rfl

/-- A pk lookup that fails on `l` continues into the appended rows. -/
theorem find?_append_of_none (l l2 : List Todo) (id : Nat)
    (h : l.find? (fun u => u.id == id) = none) :
    (l ++ l2).find? (fun u => u.id == id) = l2.find? (fun u => u.id == id) := by
  simp [List.find?_append, h]

/-- A successful pk lookup returns a row carrying that pk. -/
theorem findTodo_some_match (s : Store) (id : Nat) (t : Todo)
    (h : findTodo s id = some t) : (t.id == id) = true := by
  have h2 : s.todos.find? (fun u => u.id == id) = some t := h
  have h3 := List.find?_some h2
  simpa using h3

/-- The toggle row transformation preserves the primary key. -/
theorem toggleAt_id (id : Nat) (now : Time) (u : Todo) :
    (toggleAt id now u).id = u.id := by
  unfold toggleAt
  split <;> rfl

/-- On the matching row the toggle transformation flips `completed` and
refreshes `updated_at`. -/
theorem toggleAt_of_match (id : Nat) (now : Time) (u : Todo)
    (h : (u.id == id) = true) :
    toggleAt id now u = { u with completed := !u.completed, updated_at := now } := by
  simp [toggleAt, h]

/-- One successful toggle step: for an existing row, the request
succeeds and the row afterwards carries the flipped flag and the new
timestamp. -/
theorem toggle_step (s : Store) (id : Nat) (now : Time) (t : Todo)
    (h : findTodo s id = some t) :
    ∃ s2, toggleTodo s id now = Except.ok s2 ∧
      findTodo s2 id = some { t with completed := !t.completed, updated_at := now } := by
  have hmatch : (t.id == id) = true := findTodo_some_match s id t h
  refine ⟨{ s with todos := s.todos.map (toggleAt id now) }, by simp [toggleTodo, h], ?_⟩
  have h1 : (s.todos.map (toggleAt id now)).find? (fun u => u.id == id)
      = some (toggleAt id now t) :=
    find?_map_pk _ (toggleAt_id id now) id s.todos t h
  show (s.todos.map (toggleAt id now)).find? (fun u => u.id == id) = _
  rw [h1, toggleAt_of_match id now t hmatch]

/-! Claim theorems. -/

/-- C1 counterexample: a create request whose form data sets the
`completed` flag succeeds and produces an entity with
`completed = true`, so a successful create does not always start in the
pending state. -/
theorem create_not_always_pending_cex :
    (createTodo { todos := [], nextId := 1 } dSample 5).map (fun p => p.2.completed)
      = Except.ok true := rfl

/-- C1 (amended): every successful create produces an entity whose
`completed` flag equals the value supplied through the form, which is
false when the checkbox is left unchecked; a newly created todo starts
pending exactly when the caller does not set `completed`. -/
theorem create_completed_from_form (s : Store) (d : TodoFormData) (now : Time)
    (hv : formValid d = true) :
    (createTodo s d now).map (fun p => p.2.completed) = Except.ok d.completed := by
  simp [createTodo, hv, Except.map]

/-- C1 witness: the amended statement at a concrete input. -/
theorem create_completed_from_form_witness :
    (createTodo sSample dPending 4).map (fun p => p.2.completed)
      = Except.ok dPending.completed :=
  create_completed_from_form sSample dPending 4 (by decide)

/-- C2: a create request fails, with a ValidationError naming the
`title` field, exactly when the supplied title is empty or longer than
200 characters; on such a failure the store is unchanged (nothing is
persisted). -/
theorem create_validation_exact (s : Store) (d : TodoFormData) (now : Time) :
    (createTodo s d now = Except.error (Err.ValidationError "title")
       ↔ (d.title = "" ∨ 200 < d.title.length)) ∧
    ((d.title = "" ∨ 200 < d.title.length) → createEffect s d now = s) := by
  by_cases hv : formValid d = true
  · have hgood := (formValid_iff d).mp hv
    refine ⟨?_, fun h => absurd h hgood⟩
    simp [createTodo, hv, hgood]
  · have hbad : d.title = "" ∨ 200 < d.title.length := by
      by_contra h
      exact hv ((formValid_iff d).mpr h)
    have hv2 : formValid d = false := by
      simpa using hv
    exact ⟨by simp [createTodo, hv2, hbad], fun _ => by simp [createEffect, createTodo, hv2]⟩

/-- C2 witness: the empty-title failure at a concrete input. -/
theorem create_validation_exact_witness :
    createEffect sSample { title := "", description := "x", due_date := none,
                           completed := false } 9 = sSample :=
  (create_validation_exact sSample
    { title := "", description := "x", due_date := none, completed := false } 9).2
    (Or.inl rfl)

/-- C4: for an id absent from the store, get, update, delete and toggle
all fail with NotFound, and each failing request leaves the store
unchanged. -/
theorem absent_id_not_found (s : Store) (id : Nat) (d : TodoFormData) (now : Time)
    (h : findTodo s id = none) :
    getTodo s id = Except.error Err.NotFound ∧
    updateTodo s id d now = Except.error Err.NotFound ∧
    deleteTodo s id = Except.error Err.NotFound ∧
    toggleTodo s id now = Except.error Err.NotFound ∧
    updateEffect s id d now = s ∧
    deleteEffect s id = s ∧
    toggleEffect s id now = s := by
  simp [getTodo, updateTodo, deleteTodo, toggleTodo,
        updateEffect, deleteEffect, toggleEffect, h]

/-- C4 witness: the absent id 99 on the sample store. -/
theorem absent_id_not_found_witness :
    getTodo sSample 99 = Except.error Err.NotFound ∧
    updateTodo sSample 99 dSample 5 = Except.error Err.NotFound ∧
    deleteTodo sSample 99 = Except.error Err.NotFound ∧
    toggleTodo sSample 99 5 = Except.error Err.NotFound ∧
    updateEffect sSample 99 dSample 5 = sSample ∧
    deleteEffect sSample 99 = sSample ∧
    toggleEffect sSample 99 5 = sSample :=
  absent_id_not_found sSample 99 dSample 5 (by decide)

/-- C3: for an existing id, a single toggle flips the completed flag,
and a second toggle returns it to its original value: toggle is a state
transition, not a set-to-true operation. -/
theorem toggle_flips_and_twice_restores (s : Store) (id : Nat) (t : Todo)
    (h : findTodo s id = some t) (n1 n2 : Time) :
    ∃ s1, toggleTodo s id n1 = Except.ok s1 ∧
      (getTodo s1 id).map Todo.completed = Except.ok (!t.completed) ∧
      ∃ s2, toggleTodo s1 id n2 = Except.ok s2 ∧
        (getTodo s2 id).map Todo.completed = Except.ok t.completed := by
  obtain ⟨s1, hs1, hf1⟩ := toggle_step s id n1 t h
  obtain ⟨s2, hs2, hf2⟩ := toggle_step s1 id n2 _ hf1
  refine ⟨s1, hs1, ?_, s2, hs2, ?_⟩
  · simp [getTodo, hf1, Except.map]
  · simp [getTodo, hf2, Except.map]

/-- C3 witness: the flip and the double flip on the sample store. -/
theorem toggle_flips_and_twice_restores_witness :
    ∃ s1, toggleTodo sSample 1 1 = Except.ok s1 ∧
      (getTodo s1 1).map Todo.completed = Except.ok (!tSample.completed) ∧
      ∃ s2, toggleTodo s1 1 2 = Except.ok s2 ∧
        (getTodo s2 1).map Todo.completed = Except.ok tSample.completed :=
  toggle_flips_and_twice_restores sSample 1 tSample (by decide) 1 2

/-- C5: for an existing id and valid form data, update succeeds with a
full replacement of every mutable field; a subsequent get on the same
id returns exactly the supplied values, with `updated_at` set to the
update time, `created_at` preserved, and `created_at ≤ updated_at`
whenever the update time is not before the creation time. -/
theorem update_full_replace (s : Store) (id : Nat) (d : TodoFormData) (now : Time)
    (t : Todo) (h : findTodo s id = some t) (hv : formValid d = true)
    (hc : t.created_at ≤ now) :
    ∃ s2, updateTodo s id d now = Except.ok s2 ∧
      ∃ u, getTodo s2 id = Except.ok u ∧
        u.title = d.title ∧ u.description = d.description ∧
        u.due_date = d.due_date ∧ u.completed = d.completed ∧
        u.updated_at = now ∧ u.created_at = t.created_at ∧
        u.created_at ≤ u.updated_at := by
  have hmatch : (t.id == id) = true := findTodo_some_match s id t h
  have hid : ∀ x : Todo, (if x.id == id then applyForm d now x else x).id = x.id := by
    intro x
    split <;> rfl
  have h1 : (s.todos.map (fun x => if x.id == id then applyForm d now x else x)).find?
      (fun u => u.id == id) = some (if t.id == id then applyForm d now t else t) :=
    find?_map_pk _ hid id s.todos t h
  rw [hmatch] at h1
  refine ⟨{ s with
      todos := s.todos.map (fun x => if x.id == id then applyForm d now x else x) },
    by simp [updateTodo, h, hv], applyForm d now t, ?_, rfl, rfl, rfl, rfl, rfl, rfl, hc⟩
  show getTodo _ id = _
  simp only [getTodo, findTodo]
  rw [show (if true = true then applyForm d now t else t) = applyForm d now t from rfl] at h1
  rw [h1]

/-- C5 witness: a full replacement on the sample store. -/
theorem update_full_replace_witness :
    ∃ s2, updateTodo sSample 1 dSample 7 = Except.ok s2 ∧
      ∃ u, getTodo s2 1 = Except.ok u ∧
        u.title = dSample.title ∧ u.description = dSample.description ∧
        u.due_date = dSample.due_date ∧ u.completed = dSample.completed ∧
        u.updated_at = 7 ∧ u.created_at = tSample.created_at ∧
        u.created_at ≤ u.updated_at :=
  update_full_replace sSample 1 dSample 7 tSample (by decide) (by decide) (by decide)

/-- C6: for valid input with the completed checkbox unchecked and a
fresh primary key, create followed by get on the new id returns an
entity whose title, description and due date match the input, with
`completed = false` and `created_at` exactly equal to `updated_at`. -/
theorem create_get_roundtrip (s : Store) (d : TodoFormData) (now : Time)
    (hv : formValid d = true) (hc : d.completed = false)
    (hfresh : findTodo s s.nextId = none) :
    ∃ s2 t, createTodo s d now = Except.ok (s2, t) ∧
      getTodo s2 t.id = Except.ok t ∧
      t.title = d.title ∧ t.description = d.description ∧
      t.due_date = d.due_date ∧ t.completed = false ∧
      t.created_at = t.updated_at := by
  refine ⟨{ todos := s.todos ++
        [{ id := s.nextId, title := d.title, description := d.description,
           completed := d.completed, due_date := d.due_date,
           created_at := now, updated_at := now }], nextId := s.nextId + 1 },
      { id := s.nextId, title := d.title, description := d.description,
        completed := d.completed, due_date := d.due_date,
        created_at := now, updated_at := now },
      by simp [createTodo, hv], ?_, rfl, rfl, rfl, hc, rfl⟩
  show getTodo _ s.nextId = _
  simp only [getTodo, findTodo]
  rw [find?_append_of_none _ _ _ hfresh]
  simp

/-- C6 witness: the create-then-get round trip on the sample store. -/
theorem create_get_roundtrip_witness :
    ∃ s2 t, createTodo sSample dPending 6 = Except.ok (s2, t) ∧
      getTodo s2 t.id = Except.ok t ∧
      t.title = dPending.title ∧ t.description = dPending.description ∧
      t.due_date = dPending.due_date ∧ t.completed = false ∧
      t.created_at = t.updated_at :=
  create_get_roundtrip sSample dPending 6 (by decide) rfl (by decide)

/-- The configured ordering of the list view on rows: a row precedes
another when it was created no earlier. -/
def recentOrder (a b : Todo) : Prop := b.created_at ≤ a.created_at

/-- Membership after the insertion step. -/
theorem mem_insertByRecent (t y : Todo) (l : List Todo) :
    y ∈ insertByRecent t l ↔ y = t ∨ y ∈ l := by
  induction l with
  | nil => simp [insertByRecent]
  | cons x xs ih =>
    by_cases h : moreRecent t x = true
    · simp only [insertByRecent, if_pos h, List.mem_cons]
    · simp only [insertByRecent, if_neg (by simpa using h : ¬moreRecent t x = true),
        List.mem_cons, ih]
      tauto

/-- Inserting into a sorted list keeps it sorted. -/
theorem pairwise_insertByRecent (t : Todo) (l : List Todo)
    (hl : l.Pairwise recentOrder) :
    (insertByRecent t l).Pairwise recentOrder := by
  induction l with
  | nil => simp [insertByRecent, List.pairwise_cons]
  | cons x xs ih =>
    rcases List.pairwise_cons.mp hl with ⟨hx, hxs⟩
    by_cases h : moreRecent t x = true
    · have ht : x.created_at ≤ t.created_at := by simpa [moreRecent] using h
      rw [insertByRecent, if_pos h]
      refine List.pairwise_cons.mpr ⟨?_, hl⟩
      intro y hy
      rcases List.mem_cons.mp hy with rfl | hy2
      · exact ht
      · exact le_trans (hx y hy2) ht
    · have ht : t.created_at ≤ x.created_at := by
        have h2 : ¬x.created_at ≤ t.created_at := by simpa [moreRecent] using h
        exact le_of_not_le h2
      rw [insertByRecent, if_neg (by simpa using h : ¬moreRecent t x = true)]
      refine List.pairwise_cons.mpr ⟨?_, ih hxs⟩
      intro y hy
      rcases (mem_insertByRecent t y xs).mp hy with rfl | hy2
      · exact ht
      · exact hx y hy2

/-- The list-view sort is sorted most-recently-created first. -/
theorem pairwise_sortByRecent (l : List Todo) :
    (sortByRecent l).Pairwise recentOrder := by
  induction l with
  | nil => simp [sortByRecent]
  | cons x xs ih => exact pairwise_insertByRecent x (sortByRecent xs) ih

/-- C7: every page returned by the list view is in the configured
most-recently-created-first order and holds at most pageSize (= 10)
rows. -/
theorem list_ordered_and_bounded (s : Store) (page : Nat) :
    (listTodos s page).Pairwise recentOrder ∧
    (listTodos s page).length ≤ pageSize := by
  constructor
  · exact List.Pairwise.sublist (List.take_sublist _ _)
      (List.Pairwise.sublist (List.drop_sublist _ _) (pairwise_sortByRecent s.todos))
  · exact List.length_take_le _ _

/-- C8: from a store whose rows all satisfy `created_at ≤ updated_at`,
and with a clock that has not run backwards (the current time is at
least every stored `updated_at`), each of create, update and toggle
preserves `created_at ≤ updated_at` on every row; and when the clock
strictly advanced past the row, a toggle strictly increases the
`updated_at` of the toggled row. -/
theorem timestamps_invariant (s : Store) (id : Nat) (d : TodoFormData) (now : Time)
    (hinv : ∀ t ∈ s.todos, t.created_at ≤ t.updated_at)
    (hclock : ∀ t ∈ s.todos, t.updated_at ≤ now) :
    (∀ s2 t, createTodo s d now = Except.ok (s2, t) →
      ∀ u ∈ s2.todos, u.created_at ≤ u.updated_at) ∧
    (∀ s2, updateTodo s id d now = Except.ok s2 →
      ∀ u ∈ s2.todos, u.created_at ≤ u.updated_at) ∧
    (∀ s2, toggleTodo s id now = Except.ok s2 →
      ∀ u ∈ s2.todos, u.created_at ≤ u.updated_at) ∧
    (∀ t, findTodo s id = some t → t.updated_at < now →
      ∃ s2 u, toggleTodo s id now = Except.ok s2 ∧ getTodo s2 id = Except.ok u ∧
        t.updated_at < u.updated_at) := by
  refine ⟨?_, ?_, ?_, ?_⟩
  · intro s2 t hok u hu
    unfold createTodo at hok
    split at hok
    · injection hok with hok
      injection hok with h1 h2
      subst h1
      rcases List.mem_append.mp hu with hm | hm
      · exact hinv u hm
      · rcases List.mem_singleton.mp hm with rfl
        exact le_refl _
    · exact absurd hok (by simp)
  · intro s2 hok u hu
    unfold updateTodo at hok
    split at hok
    · exact absurd hok (by simp)
    · split at hok
      · injection hok with hok
        subst hok
        rcases List.mem_map.mp hu with ⟨v, hv2, rfl⟩
        by_cases hvid : (v.id == id) = true
        · simp only [hvid, if_pos]
          show (applyForm d now v).created_at ≤ (applyForm d now v).updated_at
          exact le_trans (hinv v hv2) (hclock v hv2)
        · simp only [hvid]
          simpa using hinv v hv2
      · exact absurd hok (by simp)
  · intro s2 hok u hu
    unfold toggleTodo at hok
    split at hok
    · exact absurd hok (by simp)
    · injection hok with hok
      subst hok
      rcases List.mem_map.mp hu with ⟨v, hv2, rfl⟩
      by_cases hvid : (v.id == id) = true
      · simp only [toggleAt, hvid, if_pos]
        show v.created_at ≤ now
        exact le_trans (hinv v hv2) (hclock v hv2)
      · simp only [toggleAt, hvid]
        simpa using hinv v hv2
  · intro t ht hlt
    obtain ⟨s2, hs2, hf⟩ := toggle_step s id now t ht
    refine ⟨s2, { t with completed := !t.completed, updated_at := now }, hs2, ?_, hlt⟩
    simp [getTodo, hf]

/-- C8 witness: the strict-increase clause on the sample store at
time 5. -/
theorem timestamps_invariant_witness :
    ∃ s2 u, toggleTodo sSample 1 5 = Except.ok s2 ∧ getTodo s2 1 = Except.ok u ∧
      tSample.updated_at < u.updated_at :=
  (timestamps_invariant sSample 1 dSample 5 (by decide) (by decide)).2.2.2
    tSample (by decide) (by decide)

/-- C9: `toggle_todo` performs its read-modify-write with no transaction
and no atomic database update, so two concurrent toggle requests on the
same id may both read before either saves.  On a store holding one
pending todo, the interleaving read-read-save-save (both saves writing
the value computed from the pre-write store) leaves `completed = true`,
whereas two sequential toggles leave `completed = false`: one of the two
updates is lost, contradicting the required atomicity. -/
theorem toggle_lost_update_cex :
    (getTodo (toggleWritePhase (toggleWritePhase sSample 1
        ((toggleReadPhase sSample 1).getD false) 1) 1
        ((toggleReadPhase sSample 1).getD false) 2) 1).map Todo.completed
      = Except.ok true ∧
    (getTodo (toggleEffect (toggleEffect sSample 1 1) 1 2) 1).map Todo.completed
      = Except.ok false :=
  ⟨rfl, rfl⟩

/-- C10: a successful toggle rewrites the table row-wise with a map
whose action on a row with any other pk is the identity, and whose
action on any row preserves the id, title, description, due date and
creation time; the pk counter is unchanged.  Only the completed flag
and the updated_at timestamp of the addressed row can change. -/
theorem toggle_frame (s : Store) (id : Nat) (now : Time) (t : Todo)
    (h : findTodo s id = some t) :
    ∃ s2, toggleTodo s id now = Except.ok s2 ∧
      s2.nextId = s.nextId ∧
      s2.todos = s.todos.map (toggleAt id now) ∧
      (∀ u : Todo, u.id ≠ id → toggleAt id now u = u) ∧
      (∀ u : Todo, (toggleAt id now u).id = u.id ∧
        (toggleAt id now u).title = u.title ∧
        (toggleAt id now u).description = u.description ∧
        (toggleAt id now u).due_date = u.due_date ∧
        (toggleAt id now u).created_at = u.created_at) := by
  refine ⟨{ s with todos := s.todos.map (toggleAt id now) },
    by simp [toggleTodo, h], rfl, rfl, ?_, ?_⟩
  · intro u hu
    simp [toggleAt, hu]
  · intro u
    unfold toggleAt
    split <;> simp

/-- C10 witness: the frame conditions of a toggle on the sample store. -/
theorem toggle_frame_witness :
    ∃ s2, toggleTodo sSample 1 3 = Except.ok s2 ∧
      s2.nextId = sSample.nextId ∧
      s2.todos = sSample.todos.map (toggleAt 1 3) ∧
      (∀ u : Todo, u.id ≠ 1 → toggleAt 1 3 u = u) ∧
      (∀ u : Todo, (toggleAt 1 3 u).id = u.id ∧
        (toggleAt 1 3 u).title = u.title ∧
        (toggleAt 1 3 u).description = u.description ∧
        (toggleAt 1 3 u).due_date = u.due_date ∧
        (toggleAt 1 3 u).created_at = u.created_at) :=
  toggle_frame sSample 1 3 tSample (by decide)

end TodoApp
